import Mathlib

/-!
Verification development for the server-list repository.

Shallow embedding of the core collection / caching / reachability engine
(`data_collector.py`, `cache_manager.py`, `webapi/vm.py`) and of the CPU
benchmark resolver (`cpu_benchmark.py`).

Python strings are modelled as `String` / `List Char`; Python floats only
flow through the modelled code unchanged, so they are embedded as `ℚ`;
nullable fields become `Option`; the SQLite tables become lists of records
kept in table (rowid) order, with `INSERT OR REPLACE` modelled as
delete-conflicting-row-then-append (SQLite assigns a fresh rowid at the end).
The regular expressions used by `cpu_benchmark.py` are embedded as
hand-rolled leftmost-match scanners, one per pattern, and `str.replace`,
`str.split`, `str.strip`, `str.lower` get direct character-list models.
-/

namespace ServerList

/-! ### Character primitives (models of Python `str` / `re` character classes) -/

/-- Model of ASCII lower-casing (`str.lower` on the ASCII range; other
characters are left unchanged, as in Python for the characters that occur). -/
def asciiLower (c : Char) : Char :=
  if 'A' ≤ c ∧ c ≤ 'Z' then Char.ofNat (c.toNat + 32) else c

/-- Model of the regex class `\d` (ASCII digits). -/
def isDigitC (c : Char) : Bool :=
  '0' ≤ c && c ≤ '9'

/-- Model of the regex class `\w` (ASCII letters, digits and underscore). -/
def isWordC (c : Char) : Bool :=
  isDigitC c || ('a' ≤ c && c ≤ 'z') || ('A' ≤ c && c ≤ 'Z') || c = '_'

/-- Model of the regex class `\s` / Python whitespace. -/
def isSpaceC (c : Char) : Bool :=
  c = ' ' || c = '\t' || c = '\n' || c = '\r' || c = '\x0b' || c = '\x0c'

/-- Maximal runs of characters satisfying `keep`; characters failing `keep`
act as separators.  With `keep := isWordC` this is `re.findall(r"\w+", s)`,
with `keep := not whitespace` it is `str.split()`. -/
def tokensByAux (keep : Char → Bool) : List Char → List Char → List (List Char)
  | [], acc => if acc.isEmpty then [] else [acc.reverse]
  | c :: cs, acc =>
    if keep c then tokensByAux keep cs (c :: acc)
    else if acc.isEmpty then tokensByAux keep cs []
    else acc.reverse :: tokensByAux keep cs []

def tokensBy (keep : Char → Bool) (l : List Char) : List (List Char) :=
  tokensByAux keep l []

/-- Model of `" ".join(s.split())`. -/
def collapseWs (l : List Char) : List Char :=
  List.intercalate [' '] (tokensBy (fun c => !isSpaceC c) l)

/-- Model of `str.strip()`. -/
def stripWs (l : List Char) : List Char :=
  ((l.dropWhile isSpaceC).reverse.dropWhile isSpaceC).reverse

/-- One pass of `str.replace(pat, "")`: scan left to right, removing each
non-overlapping occurrence of `pat` and continuing after it.  The fuel is the
length of the scanned list (each step consumes at least one character for a
nonempty `pat`). -/
def removeSubFuel (pat : List Char) : Nat → List Char → List Char
  | 0, l => l
  | _ + 1, [] => []
  | fuel + 1, c :: cs =>
    if pat.isPrefixOf (c :: cs) then removeSubFuel pat fuel (List.drop pat.length (c :: cs))
    else c :: removeSubFuel pat fuel cs

def removeSub (pat l : List Char) : List Char :=
  removeSubFuel pat l.length l

/-- Python contiguous-substring containment (`pat in l`). -/
def isSubstr (pat : List Char) : List Char → Bool
  | [] => pat.isEmpty
  | c :: cs => pat.isPrefixOf (c :: cs) || isSubstr pat cs

/-- All suffixes of a list, the empty suffix included. -/
def allSuffixes : List Char → List (List Char)
  | [] => [[]]
  | c :: cs => (c :: cs) :: allSuffixes cs

/-- Leftmost-match regex search: try the matcher at every start position from
the left, as `re.search` does. -/
def searchFirst {α : Type} (m : List Char → Option α) : List Char → Option α
  | [] => m []
  | c :: cs =>
    match m (c :: cs) with
    | some r => some r
    | none => searchFirst m cs

/-! ### `cpu_benchmark.normalize_cpu_name` -/

/-- Model of `normalize_cpu_name`: collapse whitespace, cut everything from
the first `@` (the clock-speed suffix) and strip, remove the trademark
markers `(R)`, `(TM)`, `®`, `™` in that order, collapse whitespace again. -/
def normalizeCpuNameL (l : List Char) : List Char :=
  let s1 := collapseWs l
  let s2 := stripWs (s1.takeWhile (fun c => c ≠ '@'))
  let s3 := removeSub [ '(', 'R', ')'] s2
  let s4 := removeSub [ '(', 'T', 'M', ')'] s3
  let s5 := s4.filter (fun c => c ≠ '®')
  let s6 := s5.filter (fun c => c ≠ '™')
  collapseWs s6

def normalize_cpu_name (s : String) : String :=
  String.mk (normalizeCpuNameL s.data)

/-! ### `cpu_benchmark.extract_model_number`

One scanner per regex alternative, in the order the Python code tries them.
Each scanner returns the text of the whole match (`group(1)` spans the whole
pattern in every alternative). -/

/-- `E5-\d{4}\s*v\d` with `re.IGNORECASE`. -/
def matchE5 : List Char → Option (List Char)
  | e :: f :: d :: rest =>
    if asciiLower e = 'e' ∧ f = '5' ∧ d = '-' then
      let d4 := rest.take 4
      if d4.length = 4 ∧ d4.all isDigitC then
        let rest2 := rest.drop 4
        let ws := rest2.takeWhile isSpaceC
        match rest2.dropWhile isSpaceC with
        | v :: g :: _ =>
          if asciiLower v = 'v' ∧ isDigitC g then
            some (e :: f :: d :: (d4 ++ ws ++ [v, g]))
          else none
        | _ => none
      else none
    else none
  | _ => none

/-- `i[3579]-\d{4,5}\w*` with `re.IGNORECASE`: since `\w` covers digits, a
successful match extends over the whole word-character run, which must start
with at least four digits. -/
def matchCoreIModel : List Char → Option (List Char)
  | i :: s :: d :: rest =>
    if asciiLower i = 'i' ∧ (s = '3' ∨ s = '5' ∨ s = '7' ∨ s = '9') ∧ d = '-' then
      if 4 ≤ (rest.takeWhile isDigitC).length then
        some (i :: s :: d :: rest.takeWhile isWordC)
      else none
    else none
  | _ => none

/-- Case-insensitive literal prefix test (`pat` is given in lower case). -/
def ciIsPrefixOf (pat l : List Char) : Bool :=
  decide (pat.length ≤ l.length) && decide ((l.take pat.length).map asciiLower = pat)

/-- `Ryzen\s+\d+\s+\d{4}\w*` with `re.IGNORECASE`. -/
def matchRyzen (l : List Char) : Option (List Char) :=
  if ciIsPrefixOf [ 'r', 'y', 'z', 'e', 'n'] l then
    let r1 := l.drop 5
    let ws1 := r1.takeWhile isSpaceC
    if ws1.length = 0 then none else
    let r2 := r1.dropWhile isSpaceC
    let n1 := r2.takeWhile isDigitC
    if n1.length = 0 then none else
    let r3 := r2.dropWhile isDigitC
    let ws2 := r3.takeWhile isSpaceC
    if ws2.length = 0 then none else
    let r4 := r3.dropWhile isSpaceC
    let d4 := r4.take 4
    if d4.length = 4 ∧ d4.all isDigitC then
      some (l.take 5 ++ ws1 ++ n1 ++ ws2 ++ r4.takeWhile isWordC)
    else none
  else none

/-- `EPYC\s+\d{4}\w*` with `re.IGNORECASE`. -/
def matchEpyc (l : List Char) : Option (List Char) :=
  if ciIsPrefixOf [ 'e', 'p', 'y', 'c'] l then
    let r1 := l.drop 4
    let ws1 := r1.takeWhile isSpaceC
    if ws1.length = 0 then none else
    let r2 := r1.dropWhile isSpaceC
    let d4 := r2.take 4
    if d4.length = 4 ∧ d4.all isDigitC then
      some (l.take 4 ++ ws1 ++ r2.takeWhile isWordC)
    else none
  else none

/-- `\d{4,5}\w*`: a word-character run starting with at least four digits. -/
def matchGeneric (l : List Char) : Option (List Char) :=
  let d4 := l.take 4
  if d4.length = 4 ∧ d4.all isDigitC then some (l.takeWhile isWordC) else none

/-- `match.group(1).lower().replace(" ", "")`. -/
def modelToken (m : List Char) : List Char :=
  (m.map asciiLower).filter (fun c => c ≠ ' ')

/-- Model of `extract_model_number`: try the five patterns in order, each via
a full leftmost search; lower-case the winning match and drop its spaces. -/
def extractModelNumberL (l : List Char) : Option (List Char) :=
  (((((searchFirst matchE5 l).orElse
      (fun _ => searchFirst matchCoreIModel l)).orElse
      (fun _ => searchFirst matchRyzen l)).orElse
      (fun _ => searchFirst matchEpyc l)).orElse
      (fun _ => searchFirst matchGeneric l)).map modelToken

def extract_model_number (s : String) : Option String :=
  (extractModelNumberL s.data).map String.mk

/-! ### `cpu_benchmark.calculate_match_score` and its helpers -/

/-- `re.search(r"v(\d)", s)` on an already lower-cased string. -/
def matchVDigit : List Char → Option Char
  | v :: g :: _ => if v = 'v' ∧ isDigitC g then some g else none
  | _ => none

def searchVDigit (l : List Char) : Option Char :=
  searchFirst matchVDigit l

/-- `re.search(r"e5-(\d{4})", s)` on a lower-cased string: the four digits. -/
def matchE5Id : List Char → Option (List Char)
  | e :: f :: d :: rest =>
    if e = 'e' ∧ f = '5' ∧ d = '-' then
      let d4 := rest.take 4
      if d4.length = 4 ∧ d4.all isDigitC then some d4 else none
    else none
  | _ => none

def searchE5Id (l : List Char) : Option (List Char) :=
  searchFirst matchE5Id l

/-- `re.search(r"i([3579])-(\d{4,5})", s)` on a lower-cased string: the series
digit and the (greedy, at most five digit) model digits. -/
def matchCoreIId : List Char → Option (Char × List Char)
  | i :: s :: d :: rest =>
    if i = 'i' ∧ (s = '3' ∨ s = '5' ∨ s = '7' ∨ s = '9') ∧ d = '-' then
      let ds := rest.takeWhile isDigitC
      if 4 ≤ ds.length then some (s, ds.take 5) else none
    else none
  | _ => none

def searchCoreIId (l : List Char) : Option (Char × List Char) :=
  searchFirst matchCoreIId l

/-- Model of `_match_by_model_number`. -/
def matchByModelNumber (s c sl cl : List Char) : Option ℚ :=
  match extractModelNumberL s, extractModelNumberL c with
  | some sm, some cm =>
    if sm = cm then some 1
    else if ¬ (isSubstr sm cm || isSubstr cm sm) then none
    else
      match searchVDigit sl, searchVDigit cl with
      | some a, some b => if a ≠ b then some 0.3 else some 0.9
      | _, _ => some 0.9
  | _, _ => none

/-- Model of `_match_xeon_e5`. -/
def matchXeonE5 (sl cl : List Char) : Option ℚ :=
  match searchE5Id sl, searchE5Id cl with
  | some a, some b =>
    if a ≠ b then some 0.2
    else
      match searchVDigit sl, searchVDigit cl with
      | some x, some y => if x = y then some 0.95 else some 0.2
      | none, none => some 0.95
      | _, _ => some 0.2
  | _, _ => none

/-- Model of `_match_core_i`. -/
def matchCoreIScore (sl cl : List Char) : Option ℚ :=
  match searchCoreIId sl, searchCoreIId cl with
  | some a, some b => if a.1 = b.1 ∧ a.2 = b.2 then some 0.95 else some 0.2
  | _, _ => none

/-- Model of `_match_by_word_overlap`: shared distinct `\w+` words over the
query word count, halved. -/
def matchByWordOverlap (sl cl : List Char) : ℚ :=
  let sw := (tokensBy isWordC sl).dedup
  let cw := (tokensBy isWordC cl).dedup
  if sw.isEmpty then 0
  else ((sw.filter (fun w => w ∈ cw)).length : ℚ) / (sw.length : ℚ) * 0.5

/-- Model of `calculate_match_score`: model-number match, exact equality of
normalized lower-cased names, Xeon E5 rule, Core i rule, word overlap. -/
def calculateMatchScoreL (s c : List Char) : ℚ :=
  let sl := (normalizeCpuNameL s).map asciiLower
  let cl := (normalizeCpuNameL c).map asciiLower
  match matchByModelNumber s c sl cl with
  | some q => q
  | none =>
    if sl = cl then 1
    else
      match matchXeonE5 sl cl with
      | some q => q
      | none =>
        match matchCoreIScore sl cl with
        | some q => q
        | none => matchByWordOverlap sl cl

def calculate_match_score (searchName candidateName : String) : ℚ :=
  calculateMatchScoreL searchName.data candidateName.data

/-! ### The `cpu_benchmark` SQLite table and `get_benchmark`

The `cpu_benchmark` table (`cpu_name TEXT UNIQUE`, two nullable integer
scores) is a list of rows in rowid order.  `INSERT OR REPLACE` deletes the
conflicting row and appends the new one with a fresh rowid. -/

/-- A row of the `cpu_benchmark` table / the `CPUBenchmark` dataclass. -/
structure CPUBenchmark where
  cpu_name : String
  multi_thread_score : Option Int
  single_thread_score : Option Int
deriving DecidableEq, Repr

/-- SQLite `LIKE` matching: `%` matches any run, `_` any single character,
plain characters compare ASCII-case-insensitively (SQLite's default). -/
def sqliteLike : List Char → List Char → Bool
  | [], s => s.isEmpty
  | '%' :: ps, s => (allSuffixes s).any (fun t => sqliteLike ps t)
  | '_' :: ps, s =>
    match s with
    | [] => false
    | _ :: t => sqliteLike ps t
  | c :: ps, s =>
    match s with
    | [] => false
    | d :: t => (asciiLower c = asciiLower d) && sqliteLike ps t

/-- `cpu_name LIKE ?` with parameter `%q%`. -/
def likeContains (q name : List Char) : Bool :=
  sqliteLike ('%' :: (q ++ [ '%'])) name

/-- Model of `save_benchmark`: `INSERT OR REPLACE` keyed on `cpu_name`, plus
cache invalidation (the in-memory TTL cache is not part of the table state). -/
def save_benchmark (tbl : List CPUBenchmark) (cpu_name : String)
    (multi_thread single_thread : Option Int) : List CPUBenchmark :=
  tbl.filter (fun r => r.cpu_name ≠ cpu_name) ++
    [{ cpu_name := cpu_name, multi_thread_score := multi_thread,
       single_thread_score := single_thread }]

/-- Model of `get_benchmark`, line by line: exact `=` match; `LIKE %raw%`;
`LIKE %normalized%`; scan of all rows comparing extracted model numbers.
`fetchone` / the scan return the first row in table order. -/
def get_benchmark (tbl : List CPUBenchmark) (cpu_name : String) : Option CPUBenchmark :=
  let normalized_name := normalize_cpu_name cpu_name
  match tbl.find? (fun r => r.cpu_name == cpu_name) with
  | some row => some row
  | none =>
    match tbl.find? (fun r => likeContains cpu_name.data r.cpu_name.data) with
    | some row => some row
    | none =>
      match tbl.find? (fun r => likeContains normalized_name.data r.cpu_name.data) with
      | some row => some row
      | none =>
        match extract_model_number cpu_name with
        | none => none
        | some model =>
          tbl.find? (fun r => extract_model_number r.cpu_name == some model)

/-- Lookup strategy 1 of `get_benchmark`: exact string match. -/
def exactMatchStrategy (tbl : List CPUBenchmark) (cpu_name : String) : Option CPUBenchmark :=
  tbl.find? (fun r => r.cpu_name == cpu_name)

/-- Lookup strategy 2: the raw query as a `LIKE` substring of a stored name. -/
def substringRawStrategy (tbl : List CPUBenchmark) (cpu_name : String) : Option CPUBenchmark :=
  tbl.find? (fun r => likeContains cpu_name.data r.cpu_name.data)

/-- Lookup strategy 3: the normalized query as a `LIKE` substring of a stored
name. -/
def substringNormStrategy (tbl : List CPUBenchmark) (cpu_name : String) : Option CPUBenchmark :=
  tbl.find? (fun r => likeContains (normalize_cpu_name cpu_name).data r.cpu_name.data)

/-- Lookup strategy 4: equality of extracted model-number tokens. -/
def modelNumberStrategy (tbl : List CPUBenchmark) (cpu_name : String) : Option CPUBenchmark :=
  match extract_model_number cpu_name with
  | none => none
  | some model => tbl.find? (fun r => extract_model_number r.cpu_name == some model)

/-- Model of `fetch_and_save_benchmark`.  The web search
(`search_cpu_benchmark`, an out-of-scope HTML-scraping adapter) is supplied
as its result `searchResult`; on success the row is saved with
`save_benchmark(cpu_name, …)` — keyed by the caller's argument — and the
fetched record is returned. -/
def fetch_and_save_benchmark (searchResult : Option CPUBenchmark) (cpu_name : String)
    (tbl : List CPUBenchmark) : Option CPUBenchmark × List CPUBenchmark :=
  match searchResult with
  | some result =>
    (some result, save_benchmark tbl cpu_name result.multi_thread_score result.single_thread_score)
  | none => (none, tbl)

/-- Row lookup by exact key, for stating keying properties. -/
def rowByKey (tbl : List CPUBenchmark) (k : String) : Option CPUBenchmark :=
  tbl.find? (fun r => r.cpu_name == k)

/-! ### `cpu_benchmark.BackgroundFetchQueue` and `queue_background_fetch`

The pending set is the queue's only state; the background thread's effect is
summarised by the number of fetches it starts (each started task performs
exactly one fetch and then removes its name from the set). -/

/-- Model of `BackgroundFetchQueue.add`: add-if-absent; `false` and an
unchanged set when the name is already pending. -/
def BackgroundFetchQueue.add (pending : List String) (cpu_name : String) :
    Bool × List String :=
  if cpu_name ∈ pending then (false, pending)
  else (true, cpu_name :: pending)

/-- Model of `BackgroundFetchQueue.remove` (the `finally` of the task). -/
def BackgroundFetchQueue.remove (pending : List String) (cpu_name : String) : List String :=
  pending.filter (fun n => n ≠ cpu_name)

/-- Result of one `queue_background_fetch` call: the returned boolean, the
pending set afterwards, and how many background fetches the call started. -/
structure QueueResult where
  returned : Bool
  pending : List String
  fetchesStarted : Nat
deriving DecidableEq, Repr

/-- Model of `queue_background_fetch`: if `add` reports already-pending,
return `false` without starting anything; otherwise start exactly one
background fetch task and return `true`. -/
def queue_background_fetch (pending : List String) (cpu_name : String) : QueueResult :=
  match BackgroundFetchQueue.add pending cpu_name with
  | (false, p) => { returned := false, pending := p, fetchesStarted := 0 }
  | (true, p) => { returned := true, pending := p, fetchesStarted := 1 }

/-! ### `cache_manager.update_all_caches`

The `cache` table maps a key to a JSON-serialisable value; configuration
content is an arbitrary type `V` with decidable (structural) equality, the
JSON round-trip being the identity.  `update_all_caches` is given the result
of `load_config_from_file` (`none` models both a missing file and a falsy
load) and returns the new cache table together with the number of change
notifications it emits. -/

/-- Model of `_get_cache`. -/
def getCache {V : Type} (cache : List (String × V)) (key : String) : Option V :=
  (cache.find? (fun e => e.1 == key)).map (fun e => e.2)

/-- Model of `_set_cache`: `INSERT OR REPLACE` on the primary key. -/
def setCache {V : Type} (cache : List (String × V)) (key : String) (value : V) :
    List (String × V) :=
  cache.filter (fun e => e.1 ≠ key) ++ [(key, value)]

/-- Model of `update_all_caches`: load the config; if it is present and
differs from what is stored under the fixed key `"config"`, overwrite the
entry and emit one change notification; otherwise leave the table alone and
emit nothing. -/
def update_all_caches {V : Type} [DecidableEq V] (load : Option V)
    (cache : List (String × V)) : List (String × V) × Nat :=
  match load with
  | none => (cache, 0)
  | some config =>
    if getCache cache "config" = some config then (cache, 0)
    else (setCache cache "config" config, 1)

/-! ### `data_collector`: records and store

The modelled tables are `vm_info`, `host_info` (primary key `host`) and
`collection_status` (primary key `host`), each a list of rows in rowid
order.  The iLO power, ZFS pool and mount-point passes write only to their
own tables (`power_info`, `zfs_info`, `mount_info`), which no modelled claim
touches, so those tables are omitted from the store.  Timestamps
(`datetime.now().isoformat()`) are threaded in as an opaque `now` string. -/

/-- A row of `vm_info` / the `VMInfo` dataclass. -/
structure VMInfo where
  esxi_host : String
  vm_name : String
  cpu_count : Option Int
  ram_mb : Option Int
  storage_gb : Option ℚ
  power_state : Option String
  cpu_usage_mhz : Option Int
  memory_usage_mb : Option Int
  collected_at : Option String
deriving DecidableEq, Repr

/-- A row of `host_info` / the `HostInfo` dataclass. -/
structure HostInfo where
  host : String
  boot_time : Option String
  uptime_seconds : Option ℚ
  status : String
  cpu_threads : Option Int
  cpu_cores : Option Int
  os_version : Option String
  cpu_usage_percent : Option ℚ
  memory_usage_percent : Option ℚ
  memory_total_bytes : Option ℚ
  memory_used_bytes : Option ℚ
  collected_at : Option String
deriving DecidableEq, Repr

/-- A row of `collection_status` / the `CollectionStatus` dataclass. -/
structure CollectionStatus where
  host : String
  last_fetch : String
  status : String
deriving DecidableEq, Repr

/-- The modelled slice of the server-data SQLite database. -/
structure Store where
  vm_info : List VMInfo
  host_info : List HostInfo
  collection_status : List CollectionStatus
deriving DecidableEq, Repr

/-- Model of `save_vm_data`: delete every row of the host, then insert the
collected VMs (stamped with the collection time) in order. -/
def save_vm_data (now : String) (esxi_host : String) (vms : List VMInfo) (s : Store) : Store :=
  { s with
    vm_info := s.vm_info.filter (fun vm => vm.esxi_host ≠ esxi_host) ++
      vms.map (fun vm => { vm with collected_at := some now }) }

/-- Model of `save_host_info`: `INSERT OR REPLACE` on `host`. -/
def save_host_info (now : String) (host_info : HostInfo) (s : Store) : Store :=
  { s with
    host_info := s.host_info.filter (fun r => r.host ≠ host_info.host) ++
      [{ host_info with collected_at := some now }] }

/-- The degraded row written by `save_host_info_failed`: status `unknown`,
every metric field null. -/
def failedHostInfo (now : String) (host : String) : HostInfo :=
  { host := host, boot_time := none, uptime_seconds := none, status := "unknown",
    cpu_threads := none, cpu_cores := none, os_version := none,
    cpu_usage_percent := none, memory_usage_percent := none,
    memory_total_bytes := none, memory_used_bytes := none, collected_at := some now }

/-- Model of `save_host_info_failed`. -/
def save_host_info_failed (now : String) (host : String) (s : Store) : Store :=
  { s with
    host_info := s.host_info.filter (fun r => r.host ≠ host) ++ [failedHostInfo now host] }

/-- Model of `update_collection_status`: `INSERT OR REPLACE` on `host`. -/
def update_collection_status (now : String) (host : String) (status : String) (s : Store) :
    Store :=
  { s with
    collection_status := s.collection_status.filter (fun r => r.host ≠ host) ++
      [{ host := host, last_fetch := now, status := status }] }

/-- Model of `get_collection_status`. -/
def get_collection_status (s : Store) (host : String) : Option CollectionStatus :=
  s.collection_status.find? (fun r => r.host == host)

/-- Model of `is_host_reachable`. -/
def is_host_reachable (s : Store) (host : String) : Bool :=
  match get_collection_status s host with
  | some st => st.status == "success"
  | none => false

/-- Model of `get_vm_info`.  As in the Python (`if esxi_host:`), a missing or
empty `esxi_host` argument disables the host filter. -/
def get_vm_info (s : Store) (vm_name : String) (esxi_host : Option String) : Option VMInfo :=
  match esxi_host with
  | some h =>
    if h = "" then s.vm_info.find? (fun vm => vm.vm_name == vm_name)
    else s.vm_info.find? (fun vm => vm.vm_name == vm_name && vm.esxi_host == h)
  | none => s.vm_info.find? (fun vm => vm.vm_name == vm_name)

/-- Model of `get_all_vm_info_for_host`. -/
def get_all_vm_info_for_host (s : Store) (esxi_host : String) : List VMInfo :=
  s.vm_info.filter (fun vm => vm.esxi_host == esxi_host)

/-- Model of `get_host_info`. -/
def get_host_info (s : Store) (host : String) : Option HostInfo :=
  s.host_info.find? (fun r => r.host == host)

/-! ### `data_collector`: the ESXi collection pass

`fetch_vm_data(si, host)` stamps `esxi_host = host` on every VM it returns
and `fetch_host_info(si, host)` builds a `HostInfo` with `host = host` and
`status = "running"`, so the adapter outcome carries host-independent
payloads.  The outcome of one target distinguishes: connection failure
(`connect_to_esxi` returned `None`); normal collection (with the optional
host-info payload); an exception raised by `fetch_vm_data` (caught before
any write); and an exception raised after the VM data was saved. -/

/-- VM fields as fetched from the hypervisor (before `esxi_host` stamping). -/
structure VMData where
  vm_name : String
  cpu_count : Option Int
  ram_mb : Option Int
  storage_gb : Option ℚ
  power_state : Option String
  cpu_usage_mhz : Option Int
  memory_usage_mb : Option Int
deriving DecidableEq, Repr

def mkVMInfo (esxi_host : String) (d : VMData) : VMInfo :=
  { esxi_host := esxi_host, vm_name := d.vm_name, cpu_count := d.cpu_count,
    ram_mb := d.ram_mb, storage_gb := d.storage_gb, power_state := d.power_state,
    cpu_usage_mhz := d.cpu_usage_mhz, memory_usage_mb := d.memory_usage_mb,
    collected_at := none }

/-- Host fields as fetched from the hypervisor (`fetch_host_info` always sets
`status = "running"` and a present boot time). -/
structure EsxiHostData where
  boot_time : String
  uptime_seconds : ℚ
  cpu_threads : Option Int
  cpu_cores : Option Int
  os_version : Option String
  cpu_usage_percent : Option ℚ
  memory_usage_percent : Option ℚ
  memory_total_bytes : Option ℚ
  memory_used_bytes : Option ℚ
deriving DecidableEq, Repr

def mkEsxiHostInfo (host : String) (d : EsxiHostData) : HostInfo :=
  { host := host, boot_time := some d.boot_time, uptime_seconds := some d.uptime_seconds,
    status := "running", cpu_threads := d.cpu_threads, cpu_cores := d.cpu_cores,
    os_version := d.os_version, cpu_usage_percent := d.cpu_usage_percent,
    memory_usage_percent := d.memory_usage_percent,
    memory_total_bytes := d.memory_total_bytes,
    memory_used_bytes := d.memory_used_bytes, collected_at := none }

/-- Outcome of attempting one ESXi target. -/
inductive EsxiOutcome where
  | connFail : EsxiOutcome
  | ok (vms : List VMData) (hostData : Option EsxiHostData) : EsxiOutcome
  | fetchVmError (e : String) : EsxiOutcome
  | fetchHostError (vms : List VMData) (e : String) : EsxiOutcome
deriving DecidableEq, Repr

/-- The `collection_status` outcome string each branch writes. -/
def expectedStatus : EsxiOutcome → String
  | .connFail => "connection_failed"
  | .ok _ _ => "success"
  | .fetchVmError e => "error: " ++ e
  | .fetchHostError _ e => "error: " ++ e

/-- One target of the ESXi loop of `collect_all_data`: the `if not si:`
branch, and `_collect_esxi_host_data` with its `try`/`except`.  Returns
whether the target counted as updated (`True` only on full success). -/
def collectEsxiTarget (now : String) (env : String → EsxiOutcome) (host : String)
    (s : Store) : Bool × Store :=
  match env host with
  | .connFail =>
    (false, save_host_info_failed now host (update_collection_status now host "connection_failed" s))
  | .ok vms hostData =>
    let s1 := save_vm_data now host (vms.map (mkVMInfo host)) s
    let s2 :=
      match hostData with
      | some d => save_host_info now (mkEsxiHostInfo host d) s1
      | none => save_host_info_failed now host s1
    (true, update_collection_status now host "success" s2)
  | .fetchVmError e =>
    (false, save_host_info_failed now host (update_collection_status now host ("error: " ++ e) s))
  | .fetchHostError vms e =>
    let s1 := save_vm_data now host (vms.map (mkVMInfo host)) s
    (false, save_host_info_failed now host (update_collection_status now host ("error: " ++ e) s1))

/-- The ESXi loop over the configured targets (the keys of `esxi_auth`, in
order), each processed independently; the boolean is the coalesced
`updated` flag. -/
def collectEsxiAll (now : String) (env : String → EsxiOutcome) :
    List String → Store → Bool × Store
  | [], s => (false, s)
  | host :: rest, s =>
    let r := collectEsxiTarget now env host s
    let r2 := collectEsxiAll now env rest r.2
    (r.1 || r2.1, r2.2)

/-! ### `data_collector`: the Prometheus uptime pass -/

/-- The `UptimeData` dataclass (`fetch_prometheus_uptime` result). -/
structure UptimeData where
  boot_time : String
  uptime_seconds : ℚ
  status : String
deriving DecidableEq, Repr

/-- The `UsageMetrics` dataclass (`fetch_prometheus_usage` result). -/
structure UsageMetrics where
  cpu_usage_percent : Option ℚ
  memory_usage_percent : Option ℚ
  memory_total_bytes : Option ℚ
  memory_used_bytes : Option ℚ
deriving DecidableEq, Repr

/-- One configured machine (`config.yaml`): its name, `os` value and whether
it has an `esxi` section. -/
structure Machine where
  name : String
  os : String
  hasEsxi : Bool
deriving DecidableEq, Repr

/-- Environment of the Prometheus pass: the configured URL, the machine
list, and the adapter results per host (instance-name derivation and the
Windows/Linux metric choice are folded into the adapter). -/
structure PromEnv where
  url : Option String
  machines : List Machine
  uptime : String → Option UptimeData
  usage : String → Option UsageMetrics

/-- The machines collected via Prometheus: those without an `esxi` section. -/
def promTargets (env : PromEnv) : List Machine :=
  env.machines.filter (fun m => !m.hasEsxi)

/-- The `HostInfo` written on a successful Prometheus uptime fetch. -/
def mkPromHostInfo (host : String) (up : UptimeData) (usage : Option UsageMetrics) : HostInfo :=
  { host := host, boot_time := some up.boot_time, uptime_seconds := some up.uptime_seconds,
    status := up.status, cpu_threads := none, cpu_cores := none, os_version := none,
    cpu_usage_percent := usage.bind (fun u => u.cpu_usage_percent),
    memory_usage_percent := usage.bind (fun u => u.memory_usage_percent),
    memory_total_bytes := usage.bind (fun u => u.memory_total_bytes),
    memory_used_bytes := usage.bind (fun u => u.memory_used_bytes),
    collected_at := none }

/-- The loop body of `collect_prometheus_uptime_data` over its targets. -/
def collectPromTargets (now : String) (env : PromEnv) :
    List Machine → Store → Bool × Store
  | [], s => (false, s)
  | m :: rest, s =>
    let step : Bool × Store :=
      match env.uptime m.name with
      | some up => (true, save_host_info now (mkPromHostInfo m.name up (env.usage m.name)) s)
      | none => (false, save_host_info_failed now m.name s)
    let r2 := collectPromTargets now env rest step.2
    (step.1 || r2.1, r2.2)

/-- Model of `collect_prometheus_uptime_data`: nothing happens without a
configured URL or without targets; otherwise each metrics-backed host gets a
full or degraded `host_info` row.  It never touches `collection_status`. -/
def collect_prometheus_uptime_data (now : String) (env : PromEnv) (s : Store) :
    Bool × Store :=
  match env.url with
  | none => (false, s)
  | some _ =>
    let targets := promTargets env
    if targets.isEmpty then (false, s) else collectPromTargets now env targets s

/-- Model of `collect_all_data` restricted to the modelled tables: the ESXi
loop, then the Prometheus uptime pass.  The iLO power, ZFS and mount passes
write only to tables outside the modelled store.  The boolean is the
coalesced change flag that triggers the single end-of-pass notification. -/
def collect_all_data (now : String) (esxiEnv : String → EsxiOutcome)
    (esxiTargets : List String) (promEnv : PromEnv) (s : Store) : Bool × Store :=
  let r1 := collectEsxiAll now esxiEnv esxiTargets s
  let r2 := collect_prometheus_uptime_data now promEnv r1.2
  (r1.1 || r2.1, r2.2)

/-! ### `webapi/vm.py`: the VM read paths -/

/-- The JSON dictionary produced by the VM read paths: the `VMInfo` fields
plus `cached_power_state`. -/
structure VMDict where
  esxi_host : String
  vm_name : String
  cpu_count : Option Int
  ram_mb : Option Int
  storage_gb : Option ℚ
  power_state : Option String
  cpu_usage_mhz : Option Int
  memory_usage_mb : Option Int
  collected_at : Option String
  cached_power_state : Option String
deriving DecidableEq, Repr

/-- `dataclasses.asdict(vm)` plus the `cached_power_state` copy. -/
def vmToDict (vm : VMInfo) : VMDict :=
  { esxi_host := vm.esxi_host, vm_name := vm.vm_name, cpu_count := vm.cpu_count,
    ram_mb := vm.ram_mb, storage_gb := vm.storage_gb, power_state := vm.power_state,
    cpu_usage_mhz := vm.cpu_usage_mhz, memory_usage_mb := vm.memory_usage_mb,
    collected_at := vm.collected_at, cached_power_state := vm.power_state }

/-- Model of `apply_unknown_power_state_if_unreachable`: keep the cached
value in `cached_power_state`; override `power_state` with `"unknown"` only
when the record's `esxi_host` is truthy (non-empty) and unreachable. -/
def apply_unknown_power_state_if_unreachable (s : Store) (vm_info : Option VMInfo) :
    Option VMDict :=
  match vm_info with
  | none => none
  | some vm =>
    let result := vmToDict vm
    if vm.esxi_host ≠ "" ∧ ¬ is_host_reachable s vm.esxi_host = true then
      some { result with power_state := some "unknown" }
    else some result

/-- The single-VM read path of the API (`get_vm_info_api` route body):
cache lookup followed by the unreachability override. -/
def get_vm_info_api (s : Store) (vm_name : String) (esxi_host : Option String) :
    Option VMDict :=
  apply_unknown_power_state_if_unreachable s (get_vm_info s vm_name esxi_host)

/-- Model of the `get_vms_for_host` route body: every VM of the host, with
`cached_power_state` kept and `power_state` degraded to `"unknown"` exactly
when the queried host is unreachable. -/
def get_vms_for_host (s : Store) (esxi_host : String) : List VMDict :=
  let host_reachable := is_host_reachable s esxi_host
  (get_all_vm_info_for_host s esxi_host).map (fun vm =>
    { vmToDict vm with
      power_state := if host_reachable = true then vm.power_state else some "unknown" })

/-! ## Helper lemmas -/

theorem find?_filter_of_imp {α : Type} (p q : α → Bool) (l : List α)
    (h : ∀ x, p x = true → q x = true) : (l.filter q).find? p = l.find? p := by
  induction l with
  | nil => rfl
  | cons a t ih =>
    rw [List.filter_cons]
    by_cases hq : q a = true
    · rw [if_pos hq]
      by_cases hp : p a = true
      · rw [List.find?_cons_of_pos _ hp, List.find?_cons_of_pos _ hp]
      · rw [List.find?_cons_of_neg _ hp, List.find?_cons_of_neg _ hp, ih]
    · have hp : ¬ p a = true := fun hpa => hq (h a hpa)
      rw [if_neg hq, ih, List.find?_cons_of_neg _ hp]

theorem find?_filter_none {α : Type} (p q : α → Bool) (l : List α)
    (h : ∀ x, q x = true → p x = false) : (l.filter q).find? p = none := by
  induction l with
  | nil => rfl
  | cons a t ih =>
    by_cases hq : q a = true
    · have hp := h a hq
      simp only [List.filter_cons, hq, if_pos]
      rw [List.find?_cons_of_neg _ (by simp [hp]), ih]
    · simp only [List.filter_cons, hq, if_neg, ite_false]
      exact ih

theorem find?_map_none {α β : Type} (p : β → Bool) (f : α → β) (l : List α)
    (h : ∀ x ∈ l, p (f x) = false) : (l.map f).find? p = none := by
  induction l with
  | nil => rfl
  | cons a t ih =>
    simp only [List.map_cons]
    rw [List.find?_cons_of_neg _ (by simp [h a (by simp)]), ih]
    intro x hx
    exact h x (by simp [hx])

theorem filter_map_of_all {α β : Type} (p : β → Bool) (f : α → β) (l : List α)
    (h : ∀ x ∈ l, p (f x) = true) : (l.map f).filter p = l.map f := by
  induction l with
  | nil => rfl
  | cons a t ih =>
    simp only [List.map_cons, List.filter_cons, h a (by simp), if_pos]
    rw [ih]
    intro x hx
    exact h x (by simp [hx])

theorem filter_map_none_of_all {α β : Type} (p : β → Bool) (f : α → β) (l : List α)
    (h : ∀ x ∈ l, p (f x) = false) : (l.map f).filter p = [] := by
  induction l with
  | nil => rfl
  | cons a t ih =>
    simp only [List.map_cons, List.filter_cons, h a (by simp), Bool.false_eq_true,
      if_neg, ite_false]
    exact ih fun x hx => h x (by simp [hx])

theorem forall2_map_self {α β : Type} (r : α → β → Prop) (f : α → β) (l : List α)
    (h : ∀ x ∈ l, r x (f x)) : List.Forall₂ r l (l.map f) := by
  induction l with
  | nil => exact List.Forall₂.nil
  | cons a t ih =>
    exact List.Forall₂.cons (h a (by simp)) (ih fun x hx => h x (by simp [hx]))

/-! ## C8: the match-scoring function -/

theorem matchByModelNumber_values (s c sl cl : List Char) (q : ℚ)
    (h : matchByModelNumber s c sl cl = some q) : q = 1 ∨ q = 0.3 ∨ q = 0.9 := by
  unfold matchByModelNumber at h
  repeat' split at h
  all_goals simp_all

theorem matchXeonE5_values (sl cl : List Char) (q : ℚ)
    (h : matchXeonE5 sl cl = some q) : q = 0.2 ∨ q = 0.95 := by
  unfold matchXeonE5 at h
  repeat' split at h
  all_goals simp_all

theorem matchCoreIScore_values (sl cl : List Char) (q : ℚ)
    (h : matchCoreIScore sl cl = some q) : q = 0.95 ∨ q = 0.2 := by
  unfold matchCoreIScore at h
  repeat' split at h
  all_goals simp_all

theorem matchByWordOverlap_bounds (sl cl : List Char) :
    0 ≤ matchByWordOverlap sl cl ∧ matchByWordOverlap sl cl ≤ 1 := by
  unfold matchByWordOverlap
  dsimp only
  split
  · norm_num
  · rename_i hne
    set sw := (tokensBy isWordC sl).dedup with hsw
    set cw := (tokensBy isWordC cl).dedup with hcw
    have hlen : (sw.filter (fun w => w ∈ cw)).length ≤ sw.length :=
      List.length_filter_le _ sw
    have hpos : 0 < (sw.length : ℚ) := by
      have : sw ≠ [] := by
        intro hnil
        simp [hnil] at hne
      have : 0 < sw.length := List.length_pos.mpr this
      exact_mod_cast this
    constructor
    · positivity
    · have hdiv : ((sw.filter (fun w => w ∈ cw)).length : ℚ) / (sw.length : ℚ) ≤ 1 := by
        rw [div_le_one hpos]
        exact_mod_cast hlen
      have hnn : (0 : ℚ) ≤ ((sw.filter (fun w => w ∈ cw)).length : ℚ) / (sw.length : ℚ) := by
        positivity
      nlinarith

theorem calculateMatchScoreL_bounds (s c : List Char) :
    0 ≤ calculateMatchScoreL s c ∧ calculateMatchScoreL s c ≤ 1 := by
  unfold calculateMatchScoreL
  dsimp only
  split
  · rename_i q h
    rcases matchByModelNumber_values _ _ _ _ _ h with rfl | rfl | rfl <;> norm_num
  · split
    · norm_num
    · split
      · rename_i q h
        rcases matchXeonE5_values _ _ _ h with rfl | rfl <;> norm_num
      · split
        · rename_i q h
          rcases matchCoreIScore_values _ _ _ h with rfl | rfl <;> norm_num
        · exact matchByWordOverlap_bounds _ _

/-- C8: the match-scoring function satisfies the spec example equations —
identical names score `1.0`, the Xeon `E5-2699 v4` versus `v3` pair scores
below `0.5`, an empty query scores `0.0` — and every score lies in
`[0.0, 1.0]`. -/
theorem c8_match_score_examples_and_range :
    calculate_match_score "Intel Core i7-12700K" "Intel Core i7-12700K" = 1 ∧
    calculate_match_score "Intel Xeon E5-2699 v4" "Intel Xeon E5-2699 v3" < 0.5 ∧
    calculate_match_score "" "anything" = 0 ∧
    ∀ s c : String, 0 ≤ calculate_match_score s c ∧ calculate_match_score s c ≤ 1 := by
  refine ⟨by decide, ?_, by decide, fun s c => calculateMatchScoreL_bounds s.data c.data⟩
  rw [show calculate_match_score "Intel Xeon E5-2699 v4" "Intel Xeon E5-2699 v3" = 0.2 from rfl]
  norm_num

/-! ## C5: the lookup strategy order of `get_benchmark` -/

/-- C5: `get_benchmark` equals the left-biased choice of its four
strategies — exact match, raw-query substring, normalized-query substring,
model-number equality — so each later strategy is consulted only when every
earlier one found no row.  Each strategy is a `List.find?` over the table,
hence returns the first satisfying row in table order, and the whole lookup
is a pure function of the table and the query (deterministic, no match
score involved). -/
theorem c5_lookup_strategy_order (tbl : List CPUBenchmark) (cpu_name : String) :
    get_benchmark tbl cpu_name =
      ((exactMatchStrategy tbl cpu_name).or
        ((substringRawStrategy tbl cpu_name).or
          ((substringNormStrategy tbl cpu_name).or (modelNumberStrategy tbl cpu_name)))) := by
  unfold get_benchmark exactMatchStrategy substringRawStrategy substringNormStrategy
    modelNumberStrategy
  dsimp only
  cases tbl.find? (fun r => r.cpu_name == cpu_name) with
  | some row => rfl
  | none =>
    cases tbl.find? (fun r => likeContains cpu_name.data r.cpu_name.data) with
    | some row => rfl
    | none =>
      cases tbl.find? (fun r => likeContains (normalize_cpu_name cpu_name).data r.cpu_name.data) with
      | some row => rfl
      | none =>
        cases extract_model_number cpu_name with
        | none => rfl
        | some model => cases tbl.find? (fun r => extract_model_number r.cpu_name == some model) <;> rfl

/-! ## C6: the cache refresh pass -/

theorem getCache_setCache {V : Type} (cache : List (String × V)) (k : String) (v : V) :
    getCache (setCache cache k v) k = some v := by
  unfold getCache setCache
  rw [List.find?_append, find?_filter_none]
  · simp
  · intro x hx
    simp only [decide_eq_true_eq] at hx
    simp [hx]

/-- C6: on a refresh pass whose loaded configuration equals what is stored
under the `"config"` key, no cache write and no notification happen; when it
differs, the entry is overwritten and exactly one notification is emitted;
and a second pass with the same content is a no-op with zero notifications,
so two passes over the same content notify exactly once in total (exactly
once when the content was new, zero times when it was already cached). -/
theorem c6_cache_refresh_idempotent {V : Type} [DecidableEq V] (v : V)
    (cache : List (String × V)) :
    (getCache cache "config" = some v → update_all_caches (some v) cache = (cache, 0)) ∧
    (getCache cache "config" ≠ some v →
      (update_all_caches (some v) cache).1 = setCache cache "config" v ∧
      (update_all_caches (some v) cache).2 = 1) ∧
    update_all_caches (some v) (update_all_caches (some v) cache).1 =
      ((update_all_caches (some v) cache).1, 0) ∧
    (update_all_caches (some v) cache).2 +
      (update_all_caches (some v) (update_all_caches (some v) cache).1).2 ≤ 1 := by
  by_cases h : getCache cache "config" = some v
  · simp [update_all_caches, h]
  · simp [update_all_caches, h, getCache_setCache]

theorem c6_witness :
    getCache ([] : List (String × Nat)) "config" ≠ some 1 ∧
    (update_all_caches (some 1) ([] : List (String × Nat))).2 = 1 ∧
    update_all_caches (some 1) (update_all_caches (some 1) ([] : List (String × Nat))).1 =
      ((update_all_caches (some 1) ([] : List (String × Nat))).1, 0) := by
  have h := c6_cache_refresh_idempotent 1 ([] : List (String × Nat))
  exact ⟨by decide, (h.2.1 (by decide)).2, h.2.2.1⟩

/-! ## C7: the background fetch queue -/

/-- C7: with no fetch pending for a CPU name, a first
`queue_background_fetch` call returns `true` and starts exactly one
background fetch; a second call made while the first is still in flight
(before the task's `remove`) returns `false`, starts nothing and leaves the
pending set unchanged — the two calls together start exactly one fetch, and
the add-if-absent `BackgroundFetchQueue.add` is what reports the duplicate. -/
theorem c7_single_flight_queue (pending : List String) (cpu_name : String)
    (h : cpu_name ∉ pending) :
    (queue_background_fetch pending cpu_name).returned = true ∧
    (queue_background_fetch pending cpu_name).fetchesStarted = 1 ∧
    (queue_background_fetch (queue_background_fetch pending cpu_name).pending
      cpu_name).returned = false ∧
    (queue_background_fetch (queue_background_fetch pending cpu_name).pending
      cpu_name).fetchesStarted = 0 ∧
    (queue_background_fetch (queue_background_fetch pending cpu_name).pending
      cpu_name).pending = (queue_background_fetch pending cpu_name).pending ∧
    (queue_background_fetch pending cpu_name).fetchesStarted +
      (queue_background_fetch (queue_background_fetch pending cpu_name).pending
        cpu_name).fetchesStarted = 1 ∧
    BackgroundFetchQueue.add (queue_background_fetch pending cpu_name).pending cpu_name =
      (false, (queue_background_fetch pending cpu_name).pending) := by
  unfold queue_background_fetch BackgroundFetchQueue.add
  simp [h]

theorem c7_witness :
    ("Core i5-1135G7" : String) ∉ ([] : List String) ∧
    (queue_background_fetch [] "Core i5-1135G7").fetchesStarted +
      (queue_background_fetch (queue_background_fetch [] "Core i5-1135G7").pending
        "Core i5-1135G7").fetchesStarted = 1 :=
  ⟨by decide, (c7_single_flight_queue [] "Core i5-1135G7" (by decide)).2.2.2.2.2.1⟩

/-! ## C2: the storage key of a fetched benchmark -/

/-- C2 counterexample: querying `"i7-12700K"` while the benchmark source
returns the canonical display name `"Intel Core i7-12700K"` stores a row
keyed by the query string, not by the canonical name — refuting the claim
that the stored record is keyed by the canonical name. -/
theorem c2_counterexample :
    ((fetch_and_save_benchmark
        (some { cpu_name := "Intel Core i7-12700K", multi_thread_score := some 30000,
                single_thread_score := some 4000 })
        "i7-12700K" []).2.map (fun r => r.cpu_name) = ["i7-12700K"]) ∧
    ("i7-12700K" : String) ≠ "Intel Core i7-12700K" :=
  ⟨rfl, by decide⟩

/-- C2 amended: when the acquisition pipeline finds a benchmark, the record
stored in the table is keyed by the caller's query string `cpu_name` (the
canonical name returned by the source is only carried in the returned
`CPUBenchmark`); rows under every other key are untouched. -/
theorem c2_amended_query_keyed_upsert (tbl : List CPUBenchmark)
    (cpu_name canonical : String) (multi single : Option Int) :
    (fetch_and_save_benchmark
        (some { cpu_name := canonical, multi_thread_score := multi,
                single_thread_score := single }) cpu_name tbl).1 =
      some { cpu_name := canonical, multi_thread_score := multi,
             single_thread_score := single } ∧
    rowByKey (fetch_and_save_benchmark
        (some { cpu_name := canonical, multi_thread_score := multi,
                single_thread_score := single }) cpu_name tbl).2 cpu_name =
      some { cpu_name := cpu_name, multi_thread_score := multi,
             single_thread_score := single } ∧
    ∀ k, k ≠ cpu_name →
      rowByKey (fetch_and_save_benchmark
          (some { cpu_name := canonical, multi_thread_score := multi,
                  single_thread_score := single }) cpu_name tbl).2 k = rowByKey tbl k := by
  unfold fetch_and_save_benchmark save_benchmark rowByKey
  refine ⟨rfl, ?_, ?_⟩
  · rw [List.find?_append, find?_filter_none]
    · simp
    · intro x hx
      simp only [decide_eq_true_eq] at hx
      simp [hx]
  · intro k hk
    rw [List.find?_append, find?_filter_of_imp]
    · cases hf : tbl.find? (fun r => r.cpu_name == k) with
      | some r => rfl
      | none => simp [Option.or, hk, Ne.symm hk]
    · intro x hx
      simp only [beq_iff_eq] at hx
      simp [hx, hk]

theorem c2_amended_witness :
    rowByKey (fetch_and_save_benchmark
        (some { cpu_name := "Intel Core i7-12700K", multi_thread_score := some 30000,
                single_thread_score := some 4000 })
        "i7-12700K"
        [{ cpu_name := "AMD Ryzen 9 5900X", multi_thread_score := some 40000,
           single_thread_score := some 3500 }]).2 "i7-12700K" =
      some { cpu_name := "i7-12700K", multi_thread_score := some 30000,
             single_thread_score := some 4000 } ∧
    rowByKey (fetch_and_save_benchmark
        (some { cpu_name := "Intel Core i7-12700K", multi_thread_score := some 30000,
                single_thread_score := some 4000 })
        "i7-12700K"
        [{ cpu_name := "AMD Ryzen 9 5900X", multi_thread_score := some 40000,
           single_thread_score := some 3500 }]).2 "AMD Ryzen 9 5900X" =
      rowByKey
        [{ cpu_name := "AMD Ryzen 9 5900X", multi_thread_score := some 40000,
           single_thread_score := some 3500 }] "AMD Ryzen 9 5900X" := by
  have h := c2_amended_query_keyed_upsert
    [{ cpu_name := "AMD Ryzen 9 5900X", multi_thread_score := some 40000,
       single_thread_score := some 3500 }]
    "i7-12700K" "Intel Core i7-12700K" (some 30000) (some 4000)
  exact ⟨h.2.1, h.2.2 "AMD Ryzen 9 5900X" (by decide)⟩

/-! ## C9: the unreachability override is a frame on `power_state` -/

/-- C9: every dict produced by the VM read paths carries
`cached_power_state` equal to the stored `power_state` before any override,
and every field other than `power_state` — identity, capacity, storage,
usage, timestamp — equals the stored record unchanged, reachable or not. -/
theorem c9_override_touches_only_power_state (s : Store) (vm : VMInfo) :
    (∃ d, apply_unknown_power_state_if_unreachable s (some vm) = some d ∧
      d.cached_power_state = vm.power_state ∧ d.esxi_host = vm.esxi_host ∧
      d.vm_name = vm.vm_name ∧ d.cpu_count = vm.cpu_count ∧ d.ram_mb = vm.ram_mb ∧
      d.storage_gb = vm.storage_gb ∧ d.cpu_usage_mhz = vm.cpu_usage_mhz ∧
      d.memory_usage_mb = vm.memory_usage_mb ∧ d.collected_at = vm.collected_at) ∧
    ∀ h, List.Forall₂ (fun (vm' : VMInfo) (d : VMDict) =>
        d.cached_power_state = vm'.power_state ∧ d.esxi_host = vm'.esxi_host ∧
        d.vm_name = vm'.vm_name ∧ d.cpu_count = vm'.cpu_count ∧ d.ram_mb = vm'.ram_mb ∧
        d.storage_gb = vm'.storage_gb ∧ d.cpu_usage_mhz = vm'.cpu_usage_mhz ∧
        d.memory_usage_mb = vm'.memory_usage_mb ∧ d.collected_at = vm'.collected_at)
      (get_all_vm_info_for_host s h) (get_vms_for_host s h) := by
  constructor
  · unfold apply_unknown_power_state_if_unreachable
    dsimp only
    split
    · exact ⟨_, rfl, by simp [vmToDict]⟩
    · exact ⟨_, rfl, by simp [vmToDict]⟩
  · intro h
    unfold get_vms_for_host
    dsimp only
    exact forall2_map_self _ _ _ (fun vm' _ => by simp [vmToDict])

/-! ## C1: degraded power state on the VM read paths -/

/-- Concrete store exhibiting the truthiness guard of the single-VM read
path: a cached VM whose owning host identifier is the empty string, with
that host explicitly marked `connection_failed`. -/
def c1Store : Store :=
  { vm_info :=
      [{ esxi_host := "", vm_name := "vm1", cpu_count := some 2, ram_mb := some 2048,
         storage_gb := none, power_state := some "poweredOn", cpu_usage_mhz := none,
         memory_usage_mb := none, collected_at := some "t0" }],
    host_info := [],
    collection_status :=
      [{ host := "", last_fetch := "t0", status := "connection_failed" }] }

/-- C1 counterexample: a cached VM record whose owning hypervisor host (the
empty string) is not reachable — its `CollectionStatus` outcome is
`connection_failed` — is returned by the single-VM read path with its cached
`power_state` (`"poweredOn"`), not with the `"unknown"` sentinel: the
override is skipped because `if esxi_host and ...` treats the empty string
as falsy. -/
theorem c1_counterexample :
    is_host_reachable c1Store "" = false ∧
    get_collection_status c1Store "" =
      some { host := "", last_fetch := "t0", status := "connection_failed" } ∧
    (get_vm_info_api c1Store "vm1" none).map (fun d => d.power_state) =
      some (some "poweredOn") ∧
    (get_vm_info_api c1Store "vm1" none).map (fun d => d.power_state) ≠
      some (some "unknown") := by
  refine ⟨by decide, by decide, by decide, by decide⟩

/-- C1 amended: for every VM record with a non-empty owning host identifier
read through the single-VM path, `power_state` is the cached value when the
owning host is reachable and the `"unknown"` sentinel when it is not, while
`cpu_count` and `ram_mb` are the cached values either way; on the per-host
VM list path the same holds for every returned record (there the override
applies whenever the queried host is unreachable, with no emptiness guard). -/
theorem c1_amended_unreachable_power_state (s : Store) (vm_name : String)
    (esxi_host : Option String) (vm : VMInfo)
    (hfind : get_vm_info s vm_name esxi_host = some vm) (hne : vm.esxi_host ≠ "") :
    (∃ d, get_vm_info_api s vm_name esxi_host = some d ∧
      d.power_state =
        (if is_host_reachable s vm.esxi_host = true then vm.power_state else some "unknown") ∧
      d.cpu_count = vm.cpu_count ∧ d.ram_mb = vm.ram_mb) ∧
    ∀ h, List.Forall₂ (fun (vm' : VMInfo) (d : VMDict) =>
        d.power_state =
          (if is_host_reachable s h = true then vm'.power_state else some "unknown") ∧
        d.cpu_count = vm'.cpu_count ∧ d.ram_mb = vm'.ram_mb)
      (get_all_vm_info_for_host s h) (get_vms_for_host s h) := by
  constructor
  · unfold get_vm_info_api
    rw [hfind]
    unfold apply_unknown_power_state_if_unreachable
    dsimp only
    by_cases hr : is_host_reachable s vm.esxi_host = true
    · rw [if_neg (by simp [hr])]
      exact ⟨_, rfl, by simp [vmToDict, hr]⟩
    · rw [if_pos ⟨hne, hr⟩]
      exact ⟨_, rfl, by simp [vmToDict, hr]⟩
  · intro h
    unfold get_vms_for_host
    dsimp only
    apply forall2_map_self
    intro vm' _
    by_cases hr : is_host_reachable s h = true <;> simp [vmToDict, hr]

/-- Concrete store for the C1 witness: one VM on host `esxi1`, the host
marked `connection_failed`. -/
def c1WitnessStore : Store :=
  { vm_info :=
      [{ esxi_host := "esxi1", vm_name := "vm1", cpu_count := some 4, ram_mb := some 8192,
         storage_gb := none, power_state := some "poweredOn", cpu_usage_mhz := none,
         memory_usage_mb := none, collected_at := some "t0" }],
    host_info := [],
    collection_status :=
      [{ host := "esxi1", last_fetch := "t0", status := "connection_failed" }] }

theorem c1_amended_witness :
    ∃ d, get_vm_info_api c1WitnessStore "vm1" (some "esxi1") = some d ∧
      d.power_state = some "unknown" ∧ d.cpu_count = some 4 ∧ d.ram_mb = some 8192 := by
  obtain ⟨⟨d, hd, hp, hc, hr⟩, -⟩ :=
    c1_amended_unreachable_power_state c1WitnessStore "vm1" (some "esxi1")
      { esxi_host := "esxi1", vm_name := "vm1", cpu_count := some 4,
        ram_mb := some 8192, storage_gb := none, power_state := some "poweredOn",
        cpu_usage_mhz := none, memory_usage_mb := none, collected_at := some "t0" }
      (by decide) (by decide)
  refine ⟨d, hd, ?_, hc, hr⟩
  rw [hp]
  simp [show is_host_reachable c1WitnessStore "esxi1" = false from by decide]

/-! ## C3: `save_vm_data` replaces exactly the owner's VM set -/

theorem filter_filter_of_imp {α : Type} (p q : α → Bool) (l : List α)
    (h : ∀ x, p x = true → q x = true) : (l.filter q).filter p = l.filter p := by
  induction l with
  | nil => rfl
  | cons a t ih =>
    rw [List.filter_cons]
    by_cases hq : q a = true
    · rw [if_pos hq, List.filter_cons, List.filter_cons, ih]
    · have hp : ¬ p a = true := fun hpa => hq (h a hpa)
      rw [if_neg hq, ih, List.filter_cons, if_neg hp]

/-- Concrete store for the C3 counterexample: one VM named `X` owned by host
`other`. -/
def c3Store : Store :=
  { vm_info :=
      [{ esxi_host := "other", vm_name := "X", cpu_count := some 1, ram_mb := some 512,
         storage_gb := none, power_state := some "poweredOn", cpu_usage_mhz := none,
         memory_usage_mb := none, collected_at := some "t0" }],
    host_info := [], collection_status := [] }

/-- C3 counterexample, two parts.  (i) With the empty host name: after
`save_vm_data("", [])` the name `X` is absent from the (empty) collected
list, yet `get_vm_info("X", "")` still returns a record — the empty host
argument is falsy, so the Python host filter is disabled and the foreign
record is found where the claim requires absence.  (ii) With a collected
list containing a record owned by a different host: the rows owned by `A`
after `save_vm_data("A", vs)` are empty rather than `vs`, because the insert
keeps each record's own `esxi_host` field. -/
theorem c3_counterexample :
    (save_vm_data "t1" "" [] c3Store = c3Store ∧
      (get_vm_info (save_vm_data "t1" "" [] c3Store) "X" (some "")).map
        (fun vm => vm.vm_name) = some "X") ∧
    ((save_vm_data "t1" "A"
        [{ esxi_host := "B", vm_name := "Y", cpu_count := none, ram_mb := none,
           storage_gb := none, power_state := none, cpu_usage_mhz := none,
           memory_usage_mb := none, collected_at := none }] c3Store).vm_info.filter
        (fun vm => vm.esxi_host == "A") = [] ∧
      ([{ esxi_host := "B", vm_name := "Y", cpu_count := none, ram_mb := none,
          storage_gb := none, power_state := none, cpu_usage_mhz := none,
          memory_usage_mb := none, collected_at := none }] : List VMInfo).map
        (fun vm => { vm with collected_at := some "t1" }) ≠ []) := by
  refine ⟨⟨by decide, by decide⟩, by decide, by decide⟩

/-- C3 amended: for every non-empty hypervisor host name `h` and every list
`vs` of VMs collected for `h` (each record's `esxi_host` is `h`, as
`fetch_vm_data` stamps it), after `save_vm_data(h, vs)` the stored rows owned
by `h` are exactly `vs` (stamped with the collection time), a name absent
from `vs` is absent from `get_vm_info(name, h)`, and rows and lookups of
every other non-empty host are unchanged. -/
theorem c3_amended_replace_set_for_owner (now h : String) (vs : List VMInfo) (s : Store)
    (hown : ∀ vm ∈ vs, vm.esxi_host = h) (hne : h ≠ "") :
    ((save_vm_data now h vs s).vm_info.filter (fun vm => vm.esxi_host == h) =
      vs.map (fun vm => { vm with collected_at := some now })) ∧
    (∀ name, name ∉ vs.map (fun vm => vm.vm_name) →
      get_vm_info (save_vm_data now h vs s) name (some h) = none) ∧
    (∀ h', h' ≠ h →
      (save_vm_data now h vs s).vm_info.filter (fun vm => vm.esxi_host == h') =
        s.vm_info.filter (fun vm => vm.esxi_host == h')) ∧
    (∀ name h', h' ≠ h → h' ≠ "" →
      get_vm_info (save_vm_data now h vs s) name (some h') = get_vm_info s name (some h')) := by
  refine ⟨?_, ?_, ?_, ?_⟩
  · unfold save_vm_data
    dsimp only
    have hA : (s.vm_info.filter (fun vm => decide (vm.esxi_host ≠ h))).filter
        (fun vm => vm.esxi_host == h) = [] := by
      apply List.filter_eq_nil_iff.mpr
      intro a ha
      rw [List.mem_filter] at ha
      have ha2 := ha.2
      simp only [decide_eq_true_eq] at ha2
      simp [ha2]
    have hB : (vs.map (fun vm => { vm with collected_at := some now })).filter
        (fun vm => vm.esxi_host == h) =
        vs.map (fun vm => { vm with collected_at := some now }) := by
      apply filter_map_of_all
      intro vm hvm
      simp [hown vm hvm]
    rw [List.filter_append, hA, hB, List.nil_append]
  · intro name hname
    unfold get_vm_info save_vm_data
    dsimp only
    rw [if_neg hne, List.find?_append]
    have hA : (s.vm_info.filter (fun vm => decide (vm.esxi_host ≠ h))).find?
        (fun vm => vm.vm_name == name && vm.esxi_host == h) = none := by
      apply find?_filter_none
      intro x hx
      simp only [decide_eq_true_eq] at hx
      simp [hx]
    have hB : (vs.map (fun vm => { vm with collected_at := some now })).find?
        (fun vm => vm.vm_name == name && vm.esxi_host == h) = none := by
      apply find?_map_none
      intro x hxv
      have hmem : x.vm_name ∈ vs.map (fun vm => vm.vm_name) := List.mem_map_of_mem _ hxv
      have hxn : x.vm_name ≠ name := fun hcontra => hname (hcontra ▸ hmem)
      simp [hxn]
    rw [hA, hB]
    rfl
  · intro h' hne'
    unfold save_vm_data
    dsimp only
    have hA : (s.vm_info.filter (fun vm => decide (vm.esxi_host ≠ h))).filter
        (fun vm => vm.esxi_host == h') = s.vm_info.filter (fun vm => vm.esxi_host == h') := by
      apply filter_filter_of_imp
      intro x hx
      simp only [beq_iff_eq] at hx
      simp [hx, hne']
    have hB : (vs.map (fun vm => { vm with collected_at := some now })).filter
        (fun vm => vm.esxi_host == h') = [] := by
      apply filter_map_none_of_all
      intro x hxv
      simp [hown x hxv, Ne.symm hne']
    rw [List.filter_append, hA, hB, List.append_nil]
  · intro name h' hne' hne''
    unfold get_vm_info save_vm_data
    dsimp only
    rw [if_neg hne'', if_neg hne'', List.find?_append]
    have hA : (s.vm_info.filter (fun vm => decide (vm.esxi_host ≠ h))).find?
        (fun vm => vm.vm_name == name && vm.esxi_host == h') =
        s.vm_info.find? (fun vm => vm.vm_name == name && vm.esxi_host == h') := by
      apply find?_filter_of_imp
      intro x hx
      simp only [Bool.and_eq_true, beq_iff_eq] at hx
      simp [hx.2, hne']
    have hB : (vs.map (fun vm => { vm with collected_at := some now })).find?
        (fun vm => vm.vm_name == name && vm.esxi_host == h') = none := by
      apply find?_map_none
      intro x hxv
      simp [hown x hxv, Ne.symm hne']
    rw [hA, hB]
    cases s.vm_info.find? (fun vm => vm.vm_name == name && vm.esxi_host == h') <;> rfl

/-- Concrete store for the C3 witness: one VM on host `A` (to be replaced)
and one on host `B` (to be left alone). -/
def c3WitnessStore : Store :=
  { vm_info :=
      [{ esxi_host := "A", vm_name := "old", cpu_count := some 1, ram_mb := some 512,
         storage_gb := none, power_state := some "poweredOn", cpu_usage_mhz := none,
         memory_usage_mb := none, collected_at := some "t0" },
       { esxi_host := "B", vm_name := "X", cpu_count := some 2, ram_mb := some 1024,
         storage_gb := none, power_state := some "poweredOff", cpu_usage_mhz := none,
         memory_usage_mb := none, collected_at := some "t0" }],
    host_info := [], collection_status := [] }

/-- The collected VM list used by the C3 witness: one VM owned by `A`. -/
def c3WitnessVMs : List VMInfo :=
  [{ esxi_host := "A", vm_name := "new", cpu_count := some 8,
     ram_mb := some 4096, storage_gb := none, power_state := some "poweredOn",
     cpu_usage_mhz := none, memory_usage_mb := none, collected_at := none }]

theorem c3_amended_witness :
    ((save_vm_data "t1" "A" c3WitnessVMs c3WitnessStore).vm_info.filter
      (fun vm => vm.esxi_host == "A") =
      c3WitnessVMs.map (fun vm => { vm with collected_at := some "t1" })) ∧
    get_vm_info (save_vm_data "t1" "A" c3WitnessVMs c3WitnessStore) "old" (some "A") = none ∧
    get_vm_info (save_vm_data "t1" "A" c3WitnessVMs c3WitnessStore) "X" (some "B") =
      get_vm_info c3WitnessStore "X" (some "B") := by
  have h := c3_amended_replace_set_for_owner "t1" "A" c3WitnessVMs c3WitnessStore
    (by decide) (by decide)
  exact ⟨h.1, h.2.1 "old" (by decide), h.2.2.2 "X" "B" (by decide) (by decide)⟩

/-! ## Frame lemmas on the collector's store operations -/

theorem get_collection_status_update_self (now host st : String) (s : Store) :
    get_collection_status (update_collection_status now host st s) host =
      some { host := host, last_fetch := now, status := st } := by
  unfold get_collection_status update_collection_status
  dsimp only
  rw [List.find?_append, find?_filter_none]
  · simp
  · intro x hx
    simp only [decide_eq_true_eq] at hx
    simp [hx]

theorem get_collection_status_update_other (now host st : String) (s : Store) (x : String)
    (hne : x ≠ host) :
    get_collection_status (update_collection_status now host st s) x =
      get_collection_status s x := by
  unfold get_collection_status update_collection_status
  dsimp only
  rw [List.find?_append, find?_filter_of_imp]
  · cases hf : s.collection_status.find? (fun r => r.host == x) with
    | some r => rfl
    | none => simp [Ne.symm hne]
  · intro r hr
    simp only [beq_iff_eq] at hr
    simp [hr, hne]

theorem get_host_info_save_self (now : String) (hi : HostInfo) (s : Store) :
    get_host_info (save_host_info now hi s) hi.host =
      some { hi with collected_at := some now } := by
  unfold get_host_info save_host_info
  dsimp only
  rw [List.find?_append, find?_filter_none]
  · simp
  · intro x hx
    simp only [decide_eq_true_eq] at hx
    simp [hx]

theorem get_host_info_save_other (now : String) (hi : HostInfo) (s : Store) (x : String)
    (hne : x ≠ hi.host) :
    get_host_info (save_host_info now hi s) x = get_host_info s x := by
  unfold get_host_info save_host_info
  dsimp only
  rw [List.find?_append, find?_filter_of_imp]
  · cases hf : s.host_info.find? (fun r => r.host == x) with
    | some r => rfl
    | none => simp [Ne.symm hne]
  · intro r hr
    simp only [beq_iff_eq] at hr
    simp [hr, hne]

theorem get_host_info_save_failed_self (now host : String) (s : Store) :
    get_host_info (save_host_info_failed now host s) host = some (failedHostInfo now host) := by
  unfold get_host_info save_host_info_failed
  dsimp only
  rw [List.find?_append, find?_filter_none]
  · simp [failedHostInfo]
  · intro x hx
    simp only [decide_eq_true_eq] at hx
    simp [hx]

theorem get_host_info_save_failed_other (now host : String) (s : Store) (x : String)
    (hne : x ≠ host) :
    get_host_info (save_host_info_failed now host s) x = get_host_info s x := by
  unfold get_host_info save_host_info_failed
  dsimp only
  rw [List.find?_append, find?_filter_of_imp]
  · cases hf : s.host_info.find? (fun r => r.host == x) with
    | some r => rfl
    | none => simp [failedHostInfo, Ne.symm hne]
  · intro r hr
    simp only [beq_iff_eq] at hr
    simp [hr, hne]

/-! ## C10: the Prometheus pass never writes `collection_status` -/

theorem collectPromTargets_status (now : String) (env : PromEnv) :
    ∀ (ts : List Machine) (s : Store),
      ((collectPromTargets now env ts s).2).collection_status = s.collection_status := by
  intro ts
  induction ts with
  | nil => intro s; rfl
  | cons m rest ih =>
    intro s
    unfold collectPromTargets
    dsimp only
    cases env.uptime m.name with
    | some up => exact ih _
    | none => exact ih _

/-- C10: a Prometheus-backed collection pass leaves the `collection_status`
table — and hence `is_host_reachable` for every host — exactly as it was,
for every environment (URL present or not, uptime fetches succeeding or
failing); only the hypervisor collection paths update `CollectionStatus`. -/
theorem c10_prometheus_never_writes_collection_status (now : String) (env : PromEnv)
    (s : Store) :
    ((collect_prometheus_uptime_data now env s).2).collection_status = s.collection_status ∧
    ∀ h, is_host_reachable (collect_prometheus_uptime_data now env s).2 h =
      is_host_reachable s h := by
  have key : ((collect_prometheus_uptime_data now env s).2).collection_status =
      s.collection_status := by
    unfold collect_prometheus_uptime_data
    cases env.url with
    | none => rfl
    | some u =>
      dsimp only
      split
      · rfl
      · exact collectPromTargets_status now env _ s
  refine ⟨key, fun h => ?_⟩
  unfold is_host_reachable get_collection_status
  rw [key]

/-! ## C4: connection failure degrades the host and is isolated -/

theorem collectEsxiTarget_status_collection (now : String) (env : String → EsxiOutcome)
    (host : String) (s : Store) (x : String) :
    get_collection_status (collectEsxiTarget now env host s).2 x =
      get_collection_status (update_collection_status now host (expectedStatus (env host)) s) x := by
  unfold collectEsxiTarget expectedStatus
  cases env host with
  | connFail => rfl
  | ok vms hostData =>
    dsimp only
    cases hostData with
    | some d => rfl
    | none => rfl
  | fetchVmError e => rfl
  | fetchHostError vms e => rfl

theorem collectEsxiTarget_status_self (now : String) (env : String → EsxiOutcome)
    (host : String) (s : Store) :
    get_collection_status (collectEsxiTarget now env host s).2 host =
      some { host := host, last_fetch := now, status := expectedStatus (env host) } := by
  rw [collectEsxiTarget_status_collection, get_collection_status_update_self]

theorem collectEsxiTarget_status_other (now : String) (env : String → EsxiOutcome)
    (host : String) (s : Store) (x : String) (hne : x ≠ host) :
    get_collection_status (collectEsxiTarget now env host s).2 x =
      get_collection_status s x := by
  rw [collectEsxiTarget_status_collection, get_collection_status_update_other _ _ _ _ _ hne]

theorem collectEsxiAll_status_not_mem (now : String) (env : String → EsxiOutcome) :
    ∀ (targets : List String) (s : Store) (x : String), x ∉ targets →
      get_collection_status (collectEsxiAll now env targets s).2 x =
        get_collection_status s x := by
  intro targets
  induction targets with
  | nil => intro s x _; rfl
  | cons t rest ih =>
    intro s x hx
    unfold collectEsxiAll
    dsimp only
    have hxt : x ≠ t := fun heq => hx (heq ▸ List.mem_cons_self t rest)
    have hxr : x ∉ rest := fun hmem => hx (List.mem_cons_of_mem _ hmem)
    rw [ih _ x hxr, collectEsxiTarget_status_other _ _ _ _ _ hxt]

theorem collectEsxiAll_status_mem (now : String) (env : String → EsxiOutcome) :
    ∀ (targets : List String) (s : Store) (x : String), targets.Nodup → x ∈ targets →
      get_collection_status (collectEsxiAll now env targets s).2 x =
        some { host := x, last_fetch := now, status := expectedStatus (env x) } := by
  intro targets
  induction targets with
  | nil => intro s x _ hx; cases hx
  | cons t rest ih =>
    intro s x hnd hx
    unfold collectEsxiAll
    dsimp only
    rcases List.mem_cons.mp hx with rfl | hmem
    · rw [collectEsxiAll_status_not_mem now env rest _ x (List.Nodup.not_mem hnd),
        collectEsxiTarget_status_self]
    · exact ih _ x (List.Nodup.of_cons hnd) hmem

theorem get_host_info_update_status (now host st : String) (s : Store) (x : String) :
    get_host_info (update_collection_status now host st s) x = get_host_info s x := rfl

theorem get_host_info_save_vm (now h : String) (vms : List VMInfo) (s : Store) (x : String) :
    get_host_info (save_vm_data now h vms s) x = get_host_info s x := rfl

theorem collectEsxiTarget_hostinfo_other (now : String) (env : String → EsxiOutcome)
    (host : String) (s : Store) (x : String) (hne : x ≠ host) :
    get_host_info (collectEsxiTarget now env host s).2 x = get_host_info s x := by
  unfold collectEsxiTarget
  cases env host with
  | connFail =>
    dsimp only
    rw [get_host_info_save_failed_other _ _ _ _ hne, get_host_info_update_status]
  | ok vms hostData =>
    dsimp only
    cases hostData with
    | some d =>
      dsimp only
      rw [get_host_info_update_status,
        get_host_info_save_other _ _ _ _ (show x ≠ (mkEsxiHostInfo host d).host from hne),
        get_host_info_save_vm]
    | none =>
      dsimp only
      rw [get_host_info_update_status, get_host_info_save_failed_other _ _ _ _ hne,
        get_host_info_save_vm]
  | fetchVmError e =>
    dsimp only
    rw [get_host_info_save_failed_other _ _ _ _ hne, get_host_info_update_status]
  | fetchHostError vms e =>
    dsimp only
    rw [get_host_info_save_failed_other _ _ _ _ hne, get_host_info_update_status,
      get_host_info_save_vm]

theorem collectEsxiTarget_hostinfo_connFail (now : String) (env : String → EsxiOutcome)
    (host : String) (s : Store) (henv : env host = .connFail) :
    get_host_info (collectEsxiTarget now env host s).2 host =
      some (failedHostInfo now host) := by
  unfold collectEsxiTarget
  rw [henv]
  dsimp only
  rw [get_host_info_save_failed_self]

theorem collectEsxiAll_hostinfo_not_mem (now : String) (env : String → EsxiOutcome) :
    ∀ (targets : List String) (s : Store) (x : String), x ∉ targets →
      get_host_info (collectEsxiAll now env targets s).2 x = get_host_info s x := by
  intro targets
  induction targets with
  | nil => intro s x _; rfl
  | cons t rest ih =>
    intro s x hx
    unfold collectEsxiAll
    dsimp only
    have hxt : x ≠ t := fun heq => hx (heq ▸ List.mem_cons_self t rest)
    have hxr : x ∉ rest := fun hmem => hx (List.mem_cons_of_mem _ hmem)
    rw [ih _ x hxr, collectEsxiTarget_hostinfo_other _ _ _ _ _ hxt]

theorem collectEsxiAll_hostinfo_connFail (now : String) (env : String → EsxiOutcome) :
    ∀ (targets : List String) (s : Store) (x : String), targets.Nodup → x ∈ targets →
      env x = .connFail →
      get_host_info (collectEsxiAll now env targets s).2 x =
        some (failedHostInfo now x) := by
  intro targets
  induction targets with
  | nil => intro s x _ hx; cases hx
  | cons t rest ih =>
    intro s x hnd hx henv
    unfold collectEsxiAll
    dsimp only
    rcases List.mem_cons.mp hx with rfl | hmem
    · rw [collectEsxiAll_hostinfo_not_mem now env rest _ x (List.Nodup.not_mem hnd),
        collectEsxiTarget_hostinfo_connFail _ _ _ _ henv]
    · exact ih _ x (List.Nodup.of_cons hnd) hmem henv

theorem collectPromTargets_hostinfo_not_mem (now : String) (env : PromEnv) :
    ∀ (ts : List Machine) (s : Store) (x : String), x ∉ ts.map (fun m => m.name) →
      get_host_info (collectPromTargets now env ts s).2 x = get_host_info s x := by
  intro ts
  induction ts with
  | nil => intro s x _; rfl
  | cons m rest ih =>
    intro s x hx
    have hxm : x ≠ m.name := fun heq => hx (by simp [heq])
    have hxr : x ∉ rest.map (fun m => m.name) := fun hmem => hx (by simp [hmem])
    unfold collectPromTargets
    dsimp only
    cases env.uptime m.name with
    | some up =>
      dsimp only
      rw [ih _ x hxr,
        get_host_info_save_other _ _ _ _
          (show x ≠ (mkPromHostInfo m.name up (env.usage m.name)).host from hxm)]
    | none =>
      dsimp only
      rw [ih _ x hxr, get_host_info_save_failed_other _ _ _ _ hxm]

theorem collect_prometheus_status_invariant (now : String) (env : PromEnv) (s : Store) :
    ((collect_prometheus_uptime_data now env s).2).collection_status = s.collection_status := by
  unfold collect_prometheus_uptime_data
  cases env.url with
  | none => rfl
  | some u =>
    dsimp only
    split
    · rfl
    · exact collectPromTargets_status now env _ s

theorem collect_prometheus_hostinfo_not_target (now : String) (env : PromEnv) (s : Store)
    (x : String) (hx : x ∉ (promTargets env).map (fun m => m.name)) :
    get_host_info (collect_prometheus_uptime_data now env s).2 x = get_host_info s x := by
  unfold collect_prometheus_uptime_data
  cases env.url with
  | none => rfl
  | some u =>
    dsimp only
    split
    · rfl
    · exact collectPromTargets_hostinfo_not_mem now env _ s x hx

/-- C4: in a full collection pass, every configured hypervisor target whose
connection attempt fails gets `CollectionStatus = connection_failed` and a
degraded `host_info` row — status `unknown`, every metric field null — and
the failure is isolated: every other target of the same pass still ends with
the collection status its own outcome dictates.  (The pass is a total
function of the per-target outcomes: an adapter failure is data, it cannot
abort the pass.) -/
theorem c4_connection_failure_degraded_and_isolated (now : String)
    (esxiEnv : String → EsxiOutcome) (esxiTargets : List String) (promEnv : PromEnv)
    (s : Store) (h : String) (hnd : esxiTargets.Nodup) (hmem : h ∈ esxiTargets)
    (hfail : esxiEnv h = .connFail)
    (hprom : h ∉ (promTargets promEnv).map (fun m => m.name)) :
    get_collection_status (collect_all_data now esxiEnv esxiTargets promEnv s).2 h =
      some { host := h, last_fetch := now, status := "connection_failed" } ∧
    get_host_info (collect_all_data now esxiEnv esxiTargets promEnv s).2 h =
      some (failedHostInfo now h) ∧
    ∀ h', h' ∈ esxiTargets →
      get_collection_status (collect_all_data now esxiEnv esxiTargets promEnv s).2 h' =
        some { host := h', last_fetch := now, status := expectedStatus (esxiEnv h') } := by
  have hstat : ∀ x, get_collection_status (collect_all_data now esxiEnv esxiTargets promEnv s).2 x =
      get_collection_status (collectEsxiAll now esxiEnv esxiTargets s).2 x := by
    intro x
    unfold collect_all_data get_collection_status
    dsimp only
    rw [collect_prometheus_status_invariant]
  refine ⟨?_, ?_, ?_⟩
  · rw [hstat, collectEsxiAll_status_mem now esxiEnv esxiTargets s h hnd hmem, hfail]
    rfl
  · unfold collect_all_data
    dsimp only
    rw [collect_prometheus_hostinfo_not_target now promEnv _ h hprom,
      collectEsxiAll_hostinfo_connFail now esxiEnv esxiTargets s h hnd hmem hfail]
  · intro h' hmem'
    rw [hstat, collectEsxiAll_status_mem now esxiEnv esxiTargets s h' hnd hmem']

/-- Per-target outcomes for the C4 witness: `alpha` fails to connect, every
other target collects successfully with nothing to save. -/
def c4Env : String → EsxiOutcome :=
  fun host => if host = "alpha" then .connFail else .ok [] none

/-- Prometheus environment for the C4 witness: no URL, no machines. -/
def c4PromEnv : PromEnv :=
  { url := none, machines := [], uptime := fun _ => none, usage := fun _ => none }

theorem c4_witness :
    get_collection_status (collect_all_data "t1" c4Env ["alpha", "beta"] c4PromEnv
        { vm_info := [], host_info := [], collection_status := [] }).2 "alpha" =
      some { host := "alpha", last_fetch := "t1", status := "connection_failed" } ∧
    get_host_info (collect_all_data "t1" c4Env ["alpha", "beta"] c4PromEnv
        { vm_info := [], host_info := [], collection_status := [] }).2 "alpha" =
      some (failedHostInfo "t1" "alpha") ∧
    get_collection_status (collect_all_data "t1" c4Env ["alpha", "beta"] c4PromEnv
        { vm_info := [], host_info := [], collection_status := [] }).2 "beta" =
      some { host := "beta", last_fetch := "t1", status := "success" } := by
  have h := c4_connection_failure_degraded_and_isolated "t1" c4Env ["alpha", "beta"]
    c4PromEnv { vm_info := [], host_info := [], collection_status := [] } "alpha"
    (by decide) (by decide) (by decide) (by decide)
  refine ⟨h.1, h.2.1, ?_⟩
  have hb := h.2.2 "beta" (by decide)
  rw [show expectedStatus (c4Env "beta") = "success" from rfl] at hb
  exact hb

end ServerList
